import Mathlib

/-!
Shallow embedding of the JNI marshalling helpers in
`src/java/core/lance-jni/src/ffi.rs` (the `JNIEnvExt` trait and its
implementation on `JNIEnv`, plus the `parseInts` boundary entry point),
together with proofs of the specification's claims about them.

Modelling conventions:
* A managed (JVM) value is a `JVal`.  Boxed numerics carry their numeric
  value as an unbounded `Int`; the JVM guarantees boxed `Integer`/`Long`
  payloads fit `i32`/`i64`, so range hypotheses appear in theorems where
  the claim needs them.
* A fallible JNI computation is a `JniM α`: a `Except JniError α` result
  paired with the ordered trace of managed method invocations it performed
  (an `MCall` records receiver and method name).  `bindM` concatenates
  traces and short-circuits on error, mirroring `?` in Rust.
* `call_method` dispatch is modelled by `callMethodE`: invoking a method on
  the null reference fails (the jni crate's NullPtr check), built-in shapes
  expose exactly the accessors the source uses (`intValue`, `longValue`,
  `size`, `isPresent`, `get`), and a `jobj` dispatches through a name ->
  result table checked against the declared JNI signature (the JVM resolves
  methods by name plus descriptor, so a method declared to return
  `Optional` can only produce an `Optional` reference or `null`).
* The `JList` iterator protocol (`iterator`/`hasNext`/`next` on the cursor
  object) is modelled structurally by recursion over the element list; no
  claim concerns those cursor calls, so they are not traced.  The `size`
  call on the list is traced, since the spec speaks about it.
* `JValueGen::i()/j()/z()` shape checks are `asInt`/`asLong`/`asBool`;
  `l()` on a method result is the identity in this model because every
  modelled result is already an object reference.
* Rust machine integers: `u64`/`usize` results are `Nat`, produced from the
  source's `as` casts by reduction modulo `2 ^ 64` (two's-complement
  reinterpretation on a 64-bit target); `i32`/`i64` stay `Int` with range
  hypotheses where relevant.
* `crate::error::Error` is not under `src/`; following the spec's error
  taxonomy (section 7) it is modelled as `JniError` with a
  managed-method-invocation kind (which also covers null-receiver and
  wrong-value-type failures, spec kind (a)), a string-decoding kind, and
  the io-error kind produced by `Error::io_error`.
-/

set_option maxHeartbeats 1000000

/-- A managed (JVM) value as visible to this layer: the null reference,
boxed numerics, booleans, strings, lists, `java.util.Optional` values,
direct byte buffers (address plus backing bytes), and generic objects
carrying a method table. -/
inductive JVal : Type where
  | jnull : JVal
  | jint (v : Int) : JVal
  | jlong (v : Int) : JVal
  | jbool (b : Bool) : JVal
  | jstr (s : String) : JVal
  | jlist (elems : List JVal) : JVal
  | joptional (inner : Option JVal) : JVal
  | jbuffer (addr : Nat) (data : List Nat) : JVal
  | jobj (methods : List (String × JVal)) : JVal

/-- `JObject::is_null` from the jni crate. -/
def JVal.isNull : JVal → Bool
  | .jnull => true
  | _ => false

/-- Error kinds of `crate::error::Error` as described by the spec
(section 7): managed-method-invocation failure (also covering null
receivers and wrong JValue types), managed-string-decoding failure, and
the io-error kind built by `Error::io_error`. -/
inductive JniError : Type where
  | methodInvocation (msg : String) : JniError
  | stringDecode (msg : String) : JniError
  | ioError (msg : String) : JniError
deriving DecidableEq

/-- One managed method invocation: the receiver and the method name. -/
structure MCall : Type where
  receiver : JVal
  name : String

/-- A fallible JNI computation: its result and the ordered trace of managed
method invocations it performed. -/
abbrev JniM (α : Type) : Type := Except JniError α × List MCall

def pureM {α : Type} (a : α) : JniM α := (.ok a, [])

def errM {α : Type} (e : JniError) : JniM α := (.error e, [])

/-- Lift a pure fallible step (no managed calls) into `JniM`. -/
def liftE {α : Type} (e : Except JniError α) : JniM α := (e, [])

/-- Sequencing mirroring `?` in Rust: on success traces concatenate, on
failure the computation stops with the trace accumulated so far. -/
def bindM {α β : Type} (m : JniM α) (k : α → JniM β) : JniM β :=
  match m with
  | (.error e, l) => (.error e, l)
  | (.ok a, l) => ((k a).1, l ++ (k a).2)

/-- Sequencing with a pure fallible continuation (no further managed
calls), e.g. the `.i()?` / `.z()?` shape checks. -/
def bindE {α β : Type} (m : JniM α) (k : α → Except JniError β) : JniM β :=
  match m with
  | (.error e, l) => (.error e, l)
  | (.ok a, l) => (k a, l)

/-- `Result::map` on the embedded computation. -/
def mapResult {α β : Type} (g : α → β) (m : JniM α) : JniM β :=
  bindE m (fun a => .ok (g a))

/-- `method not found` failure of `call_method` (name or descriptor does
not resolve on the receiver's class). -/
def noMethod (name : String) : Except JniError JVal :=
  .error (.methodInvocation ("method not found: " ++ name))

/-- Shape of a Java `int` result. -/
def isIntShape : JVal → Bool
  | .jint _ => true
  | _ => false

/-- Shape of a Java `long` result. -/
def isLongShape : JVal → Bool
  | .jlong _ => true
  | _ => false

/-- Shape of a Java `boolean` result. -/
def isBoolShape : JVal → Bool
  | .jbool _ => true
  | _ => false

/-- Shape of a `java.util.Optional` reference result (null allowed). -/
def isOptionalShape : JVal → Bool
  | .joptional _ => true
  | .jnull => true
  | _ => false

/-- Shape of a `java.lang.String` reference result (null allowed). -/
def isStringShape : JVal → Bool
  | .jstr _ => true
  | .jnull => true
  | _ => false

/-- Does a value conform to the return part of a JNI method descriptor?
Used for `jobj` dispatch: the JVM resolves a method by name plus
descriptor, so the result of a resolved call always conforms. -/
def matchesSig (r : JVal) (sig : String) : Bool :=
  if sig = "()Ljava/lang/Object;" then true
  else if sig = "()I" then isIntShape r
  else if sig = "()J" then isLongShape r
  else if sig = "()Z" then isBoolShape r
  else if sig = "()Ljava/util/Optional;" then isOptionalShape r
  else if sig = "()Ljava/lang/String;" then isStringShape r
  else false

/-- Result of `JNIEnv::call_method receiver name sig`: fails on the null
reference (jni's NullPtr check); built-in shapes answer exactly the
accessors used by the source; a `jobj` dispatches through its method
table, checked against the descriptor. -/
def callMethodE : JVal → String → String → Except JniError JVal
  | .jnull, _, _ => .error (.methodInvocation "call_method obj argument")
  | .jint v, name, sig =>
      if name = "intValue" ∧ sig = "()I" then .ok (.jint v) else noMethod name
  | .jlong v, name, sig =>
      if name = "longValue" ∧ sig = "()J" then .ok (.jlong v) else noMethod name
  | .jbool _, name, _ => noMethod name
  | .jstr _, name, _ => noMethod name
  | .jlist es, name, sig =>
      if name = "size" ∧ sig = "()I" then .ok (.jint (es.length : Int)) else noMethod name
  | .joptional o, name, sig =>
      if name = "isPresent" ∧ sig = "()Z" then .ok (.jbool o.isSome)
      else if name = "get" ∧ sig = "()Ljava/lang/Object;" then
        (match o with
         | some x => .ok x
         | none => .error (.methodInvocation "java.util.NoSuchElementException"))
      else noMethod name
  | .jbuffer _ _, name, _ => noMethod name
  | .jobj ms, name, sig =>
      match ms.lookup name with
      | some r => if matchesSig r sig then .ok r else noMethod name
      | none => noMethod name

/-- Traced `call_method`: records the invocation and yields its result. -/
def callMethod (v : JVal) (name sig : String) : JniM JVal :=
  (callMethodE v name sig, [⟨v, name⟩])

/-- `JValueGen::i()?`. -/
def asInt : JVal → Except JniError Int
  | .jint v => .ok v
  | _ => .error (.methodInvocation "wrong JValue type: expected int")

/-- `JValueGen::j()?`. -/
def asLong : JVal → Except JniError Int
  | .jlong v => .ok v
  | _ => .error (.methodInvocation "wrong JValue type: expected long")

/-- `JValueGen::z()?`. -/
def asBool : JVal → Except JniError Bool
  | .jbool b => .ok b
  | _ => .error (.methodInvocation "wrong JValue type: expected bool")

/-- `JNIEnvExt::get_optional` from the source: null reference means
absent; otherwise `isPresent` decides between applying `f` to the optional
reference itself (mapped into `Some`) and absent. -/
def get_optional {α : Type} (obj : JVal) (f : JVal → JniM α) : JniM (Option α) :=
  if obj.isNull then pureM none
  else
    bindM (bindE (callMethod obj "isPresent" "()Z") asBool) fun b =>
      if b then mapResult some (f obj) else pureM none

/-- The inner extractor shape every `get_*_opt` caller passes to
`get_optional` in the source: call the single-use accessor `get` on the
optional, then run the payload extractor `g` on the unwrapped value. -/
def optAccessor {α : Type} (g : JVal → JniM α) : JVal → JniM α :=
  fun inner => bindM (callMethod inner "get" "()Ljava/lang/Object;") g

/-- Payload extractor of `get_int_opt`: `intValue` then `.i()?`. -/
def intPayload (o : JVal) : JniM Int :=
  bindE (callMethod o "intValue" "()I") asInt

/-- `JNIEnvExt::get_int_opt`. -/
def get_int_opt (obj : JVal) : JniM (Option Int) :=
  get_optional obj (optAccessor intPayload)

/-- Payload extractor of `get_long_opt`: `longValue` then `.j()?`. -/
def longPayload (o : JVal) : JniM Int :=
  bindE (callMethod o "longValue" "()J") asLong

/-- `JNIEnvExt::get_long_opt`. -/
def get_long_opt (obj : JVal) : JniM (Option Int) :=
  get_optional obj (optAccessor longPayload)

/-- Payload extractor of `get_u64_opt`: `longValue`, `.j()?`, then the
source's `long_value as u64` cast, i.e. two's-complement reinterpretation
modulo `2 ^ 64`. -/
def u64Payload (o : JVal) : JniM Nat :=
  bindE (callMethod o "longValue" "()J") fun r =>
    (asLong r).map fun v => (v % (2 ^ 64 : Int)).toNat

/-- `JNIEnvExt::get_u64_opt`. -/
def get_u64_opt (obj : JVal) : JniM (Option Nat) :=
  get_optional obj (optAccessor u64Payload)

/-- `env.get_string` followed by `.to_str()?`: succeeds on a managed
string (strings in the model are already decoded, so the CESU-8 decoding
step of `to_str` cannot fail here); fails on null or a non-string. -/
def getStringE : JVal → Except JniError String
  | .jstr s => .ok s
  | .jnull => .error (.methodInvocation "get_string obj argument")
  | _ => .error (.methodInvocation "JavaException: ClassCastException")

/-- Payload extractor of `get_string_opt`: wrap as `JString`, read and
decode it. -/
def stringPayload (o : JVal) : JniM String :=
  liftE (getStringE o)

/-- `JNIEnvExt::get_string_opt`. -/
def get_string_opt (obj : JVal) : JniM (Option String) :=
  get_optional obj (optAccessor stringPayload)

/-- A borrowed byte view as built by `slice::from_raw_parts`: a raw
address plus a length, aliasing managed memory (no bytes are copied). -/
structure ByteView : Type where
  addr : Nat
  len : Nat
deriving DecidableEq

/-- `JNIEnv::get_direct_buffer_address`. -/
def get_direct_buffer_address : JVal → Except JniError Nat
  | .jbuffer a _ => .ok a
  | _ => .error (.methodInvocation "GetDirectBufferAddress: not a direct buffer")

/-- `JNIEnv::get_direct_buffer_capacity`: the managed runtime reports the
buffer capacity, the number of backing bytes. -/
def get_direct_buffer_capacity : JVal → Except JniError Nat
  | .jbuffer _ d => .ok d.length
  | _ => .error (.methodInvocation "GetDirectBufferCapacity: not a direct buffer")

/-- Payload extractor of `get_bytes_opt`: ask the runtime for the raw
address and the capacity, then build the borrowed view over that memory
(`slice::from_raw_parts`), copying nothing. -/
def bytesPayload (o : JVal) : JniM ByteView :=
  liftE ((get_direct_buffer_address o).bind fun a =>
    (get_direct_buffer_capacity o).map fun c => ByteView.mk a c)

/-- `JNIEnvExt::get_bytes_opt`. -/
def get_bytes_opt (obj : JVal) : JniM (Option ByteView) :=
  get_optional obj (optAccessor bytesPayload)

/-- Rust's `Vec`: a capacity plus the stored elements.  The source
pre-sizes with `Vec::with_capacity` and then only pushes. -/
structure Vec (α : Type) : Type where
  cap : Nat
  data : List α
deriving DecidableEq

/-- `Vec::with_capacity`. -/
def Vec.withCapacity {α : Type} (n : Nat) : Vec α := ⟨n, []⟩

/-- `Vec::push`: appends; grows the capacity (amortized doubling) only
when the vector is full. -/
def Vec.push {α : Type} (v : Vec α) (x : α) : Vec α :=
  if v.data.length < v.cap then ⟨v.cap, v.data ++ [x]⟩
  else ⟨max (2 * v.cap) (v.data.length + 1), v.data ++ [x]⟩

/-- `xs.foldl Vec.push`: push every element in order. -/
def pushAll {α : Type} (acc : Vec α) (xs : List α) : Vec α :=
  xs.foldl Vec.push acc

/-- `JNIEnv::get_list`: wraps the reference as a `java.util.List`; fails
on the null reference (jni's null check when resolving the object's
class) or a non-list. -/
def get_list : JVal → JniM (List JVal)
  | .jnull => (.error (.methodInvocation "get_object_class obj argument"), [])
  | .jlist es => (.ok es, [])
  | _ => (.error (.methodInvocation "JavaException: ClassCastException"), [])

/-- The source's `while let Some(elem) = iter.next(self)?` loop, shared by
`get_integers`, `get_longs` and `get_strings`: apply the per-element
extractor in source order, pushing each result. -/
def list_loop {α : Type} (f : JVal → JniM α) : List JVal → Vec α → JniM (Vec α)
  | [], acc => pureM acc
  | e :: rest, acc => bindM (f e) fun v => list_loop f rest (acc.push v)

/-- Element extraction of `get_integers`: `call_method(elem, "intValue",
"()I")?` then `.i()?`. -/
def elemInt (e : JVal) : JniM Int :=
  bindE (callMethod e "intValue" "()I") asInt

/-- Element extraction of `get_longs`: `call_method(elem, "longValue",
"()J")?` then `.j()?`. -/
def elemLong (e : JVal) : JniM Int :=
  bindE (callMethod e "longValue" "()J") asLong

/-- Element extraction of `get_strings`: `JString::from`, `get_string`,
`to_str` (no managed method invocation, hence no trace entry). -/
def elemStr (e : JVal) : JniM String :=
  liftE (getStringE e)

/-- `JNIEnvExt::get_integers`: `get_list`, iterate, pre-size with the
reported `size` (a Java `int`, necessarily the non-negative element
count, so the source's `as usize` is value-preserving), loop. -/
def get_integers (obj : JVal) : JniM (Vec Int) :=
  bindM (get_list obj) fun es =>
  bindM (bindE (callMethod (.jlist es) "size" "()I") asInt) fun sz =>
  list_loop elemInt es (Vec.withCapacity sz.toNat)

/-- `JNIEnvExt::get_longs`. -/
def get_longs (obj : JVal) : JniM (Vec Int) :=
  bindM (get_list obj) fun es =>
  bindM (bindE (callMethod (.jlist es) "size" "()I") asInt) fun sz =>
  list_loop elemLong es (Vec.withCapacity sz.toNat)

/-- `JNIEnvExt::get_strings`. -/
def get_strings (obj : JVal) : JniM (Vec String) :=
  bindM (get_list obj) fun es =>
  bindM (bindE (callMethod (.jlist es) "size" "()I") asInt) fun sz =>
  list_loop elemStr es (Vec.withCapacity sz.toNat)

/-- Payload extractor of `get_ints_opt`: the unwrapped value is a managed
list, delegated to `get_integers`. -/
def intsPayload (o : JVal) : JniM (Vec Int) :=
  get_integers o

/-- `JNIEnvExt::get_ints_opt`. -/
def get_ints_opt (obj : JVal) : JniM (Option (Vec Int)) :=
  get_optional obj (optAccessor intsPayload)

/-- `JNIEnvExt::get_int_as_usize_from_method`: call the named `()I`
method, `.i()?`, then the source's `as usize` cast — two's-complement
reinterpretation modulo `2 ^ 64` on a 64-bit target (a negative `i32` is
sign-extended, not rejected). -/
def get_int_as_usize_from_method (obj : JVal) (name : String) : JniM Nat :=
  bindE (callMethod obj name "()I") fun r =>
    (asInt r).map fun i => (i % (2 ^ 64 : Int)).toNat

/-- A native integer target type `T` with `T: TryFrom<i32>`: which `i32`
values are representable, and the `Debug` rendering of the conversion
error value (what the source interpolates into its failure message). -/
structure IntTarget : Type where
  inRange : Int → Bool
  errDebug : String

/-- `T::try_from(value)` for a target described by `t`. -/
def try_from (t : IntTarget) (v : Int) : Except String Int :=
  if t.inRange v then .ok v else .error t.errDebug

/-- `u32: TryFrom<i32>`: representable iff in `[0, u32::MAX]`; the error
value's `Debug` form is the constant `TryFromIntError(())`. -/
def u32Target : IntTarget :=
  ⟨fun v => decide (0 ≤ v ∧ v < 2 ^ 32), "TryFromIntError(())"⟩

/-- `i32: TryFrom<i32>` is infallible. -/
def i32Target : IntTarget := ⟨fun _ => true, "Infallible"⟩

/-- `usize: TryFrom<i32>` on a 64-bit target: representable iff
non-negative; same constant `Debug` rendering. -/
def usizeTarget : IntTarget :=
  ⟨fun v => decide (0 ≤ v ∧ v < 2 ^ 64), "TryFromIntError(())"⟩

/-- `JNIEnvExt::get_optional_integer_from_method`, generic over the
target type `t`: call the named `()Ljava/util/Optional;` method, test
`isPresent`, and when present unwrap with `get`, read `intValue`, and
narrow via `T::try_from`, mapping a conversion failure into
`Error::io_error` with the source's fixed message prefix followed by the
`Debug` rendering of the conversion error. -/
def get_optional_integer_from_method (t : IntTarget) (obj : JVal) (name : String) :
    JniM (Option Int) :=
  bindM (callMethod obj name "()Ljava/util/Optional;") fun javaObject =>
  bindM (bindE (callMethod javaObject "isPresent" "()Z") asBool) fun b =>
    if b then
      bindM (callMethod javaObject "get" "()Ljava/lang/Object;") fun innerJobj =>
      bindE (callMethod innerJobj "intValue" "()I") fun iv =>
        (asInt iv).bind fun v =>
          match try_from t v with
          | .ok w => .ok (some w)
          | .error e =>
              .error (.ioError ("Failed to convert from i32 to rust type: " ++ e))
    else pureM none

/-- `JNIEnvExt::get_optional_i32_from_method`. -/
def get_optional_i32_from_method (obj : JVal) (name : String) : JniM (Option Int) :=
  get_optional_integer_from_method i32Target obj name

/-- `JNIEnvExt::get_optional_u32_from_method`. -/
def get_optional_u32_from_method (obj : JVal) (name : String) : JniM (Option Int) :=
  get_optional_integer_from_method u32Target obj name

/-- `JNIEnvExt::get_optional_usize_from_method`. -/
def get_optional_usize_from_method (obj : JVal) (name : String) : JniM (Option Int) :=
  get_optional_integer_from_method usizeTarget obj name

/-- `JNIEnvExt::get_optional_from_method`: call the named
`()Ljava/util/Optional;` method, test `isPresent` on whatever came back
(no null-as-absent relaxation here), and when present unwrap with `get`
and apply `f` to the inner object, mapped into `Some`. -/
def get_optional_from_method {α : Type} (obj : JVal) (name : String)
    (f : JVal → JniM α) : JniM (Option α) :=
  bindM (callMethod obj name "()Ljava/util/Optional;") fun optionalObj =>
  bindM (bindE (callMethod optionalObj "isPresent" "()Z") asBool) fun b =>
    if b then
      bindM (callMethod optionalObj "get" "()Ljava/lang/Object;") fun innerObj =>
        mapResult some (f innerObj)
    else pureM none

/-- Outcome of a void boundary entry point as seen by the managed caller:
normal return, or a managed exception thrown. -/
inductive JavaOutcome : Type where
  | normal : JavaOutcome
  | thrown (e : JniError) : JavaOutcome
deriving DecidableEq

/-- Modelled from the spec: the void-form Error-to-Exception Adapter
(spec sections 4.6 and 7).  The `ok_or_throw_without_return!` macro and
the error-kind-to-exception mapping live outside `src/`; per the spec, a
failing computation's error is translated into a managed exception thrown
into the calling frame and the entry point returns void. -/
def ok_or_throw_without_return {α : Type} (r : Except JniError α) : JavaOutcome :=
  match r with
  | .ok _ => .normal
  | .error e => .thrown e

/-- `Java_com_lancedb_lance_test_JniTestHelper_parseInts`. -/
def parseInts (listObj : JVal) : JavaOutcome :=
  ok_or_throw_without_return (get_integers listObj).1

/-- `Java_com_lancedb_lance_test_JniTestHelper_parseLongs`. -/
def parseLongs (listObj : JVal) : JavaOutcome :=
  ok_or_throw_without_return (get_longs listObj).1

/-- Number of trace entries invoking the method called `n`. -/
def countName (n : String) (l : List MCall) : Nat :=
  (l.filter (fun c => c.name = n)).length

/-- Is the receiver an optional whose presence predicate answers true? -/
def isPresentOptTrue : JVal → Bool
  | .joptional (some _) => true
  | _ => false

/-- Accessor discipline over a trace: scanning left to right, a `get`
invocation is legal only when armed — i.e. only after some `isPresent`
invocation whose receiver is a present optional — and after the first
`get` no further `get` may occur (at most one accessor call). -/
def okSeq : Bool → List MCall → Bool
  | _, [] => true
  | armed, c :: rest =>
      if c.name = "get" then armed && rest.all (fun d => decide (d.name ≠ "get"))
      else okSeq (armed || (decide (c.name = "isPresent") && isPresentOptTrue c.receiver)) rest

/-- Specification of the loop's results: extract every element in order,
stopping at the first failure (`extractAll`). -/
def extractAll {α : Type} (f : JVal → JniM α) : List JVal → Except JniError (List α)
  | [] => .ok []
  | e :: rest =>
      match (f e).1 with
      | .error err => .error err
      | .ok v => (extractAll f rest).map fun vs => v :: vs

/-- Specification of the loop's trace: element traces concatenate up to
and including the first failing element. -/
def tracesOf {α : Type} (f : JVal → JniM α) : List JVal → List MCall
  | [] => []
  | e :: rest =>
      match (f e).1 with
      | .error _ => (f e).2
      | .ok _ => (f e).2 ++ tracesOf f rest

/-! ### Basic simp lemmas for the embedded monad and method dispatch -/

@[simp]
lemma bindM_ok {α β : Type} (a : α) (l : List MCall) (k : α → JniM β) :
    bindM (.ok a, l) k = ((k a).1, l ++ (k a).2) := rfl

@[simp]
lemma bindM_error {α β : Type} (e : JniError) (l : List MCall) (k : α → JniM β) :
    bindM (.error e, l) k = (.error e, l) := rfl

@[simp]
lemma bindE_ok {α β : Type} (a : α) (l : List MCall) (k : α → Except JniError β) :
    bindE (.ok a, l) k = (k a, l) := rfl

@[simp]
lemma bindE_error {α β : Type} (e : JniError) (l : List MCall) (k : α → Except JniError β) :
    bindE (.error e, l) k = (.error e, l) := rfl

@[simp]
lemma callMethodE_jint_intValue (v : Int) :
    callMethodE (.jint v) "intValue" "()I" = .ok (.jint v) := rfl

@[simp]
lemma callMethodE_jlong_longValue (v : Int) :
    callMethodE (.jlong v) "longValue" "()J" = .ok (.jlong v) := rfl

@[simp]
lemma callMethodE_jlist_size (es : List JVal) :
    callMethodE (.jlist es) "size" "()I" = .ok (.jint (es.length : Int)) := rfl

@[simp]
lemma callMethodE_joptional_isPresent (o : Option JVal) :
    callMethodE (.joptional o) "isPresent" "()Z" = .ok (.jbool o.isSome) := rfl

@[simp]
lemma callMethodE_joptional_get_some (x : JVal) :
    callMethodE (.joptional (some x)) "get" "()Ljava/lang/Object;" = .ok x := rfl

@[simp]
lemma callMethodE_jnull (name sig : String) :
    callMethodE .jnull name sig = .error (.methodInvocation "call_method obj argument") := rfl

/-- A method declared `()Ljava/util/Optional;` can only produce the null
reference or an optional: built-in shapes expose no such method, and
`jobj` dispatch checks the descriptor. -/
lemma callMethodE_optsig_shape {obj P : JVal} {name : String}
    (h : callMethodE obj name "()Ljava/util/Optional;" = .ok P) :
    P = .jnull ∨ ∃ o, P = .joptional o := by
  cases obj <;> simp [callMethodE, noMethod] at h
  case jobj ms =>
    rcases hl : ms.lookup name with _ | r <;> rw [hl] at h
    · simp at h
    · by_cases hm : matchesSig r "()Ljava/util/Optional;" = true
      · have hrP : r = P := by simpa [hm] using h
        subst hrP
        simp [matchesSig, isOptionalShape] at hm
        cases r <;> simp [isOptionalShape] at hm <;> simp
      · simp [hm] at h

/-! ### The shared list-extraction loop -/

/-- Characterization of the loop: the result is the ordered extraction of
all elements (stopping at the first failure) pushed onto the accumulator,
and the trace is the concatenation of the element traces up to and
including the first failing element. -/
lemma list_loop_eq {α : Type} (f : JVal → JniM α) :
    ∀ (l : List JVal) (acc : Vec α),
      list_loop f l acc =
        ((extractAll f l).map fun vs => pushAll acc vs, tracesOf f l) := by
  intro l
  induction l with
  | nil => intro acc; rfl
  | cons e rest ih =>
    intro acc
    rcases hfe : f e with ⟨r, tr⟩
    cases r with
    | error err =>
      simp [list_loop, extractAll, tracesOf, hfe, Except.map]
    | ok v =>
      simp only [list_loop, extractAll, tracesOf, hfe, bindM_ok]
      rw [ih (acc.push v)]
      cases hrest : extractAll f rest <;>
        simp [Except.map, pushAll]

/-- Pushing onto a vector with enough spare capacity appends without
growing the capacity. -/
lemma pushAll_eq {α : Type} :
    ∀ (xs : List α) (acc : Vec α),
      acc.data.length + xs.length ≤ acc.cap →
      pushAll acc xs = ⟨acc.cap, acc.data ++ xs⟩ := by
  intro xs
  induction xs with
  | nil =>
    intro acc h
    simp [pushAll]
  | cons x xs ih =>
    intro acc h
    have hlt : acc.data.length < acc.cap := by
      simp at h; omega
    have hpush : acc.push x = ⟨acc.cap, acc.data ++ [x]⟩ := by
      simp [Vec.push, hlt]
    have : pushAll acc (x :: xs) = pushAll (acc.push x) xs := rfl
    rw [this, hpush, ih ⟨acc.cap, acc.data ++ [x]⟩ (by simp at h ⊢; omega)]
    simp

/-- A successful full extraction yields one value per source element. -/
lemma extractAll_length {α : Type} (f : JVal → JniM α) :
    ∀ (l : List JVal) (vs : List α), extractAll f l = .ok vs → vs.length = l.length := by
  intro l
  induction l with
  | nil => intro vs h; cases h; rfl
  | cons e rest ih =>
    intro vs h
    simp only [extractAll] at h
    cases hfe : (f e).1 <;> rw [hfe] at h
    · cases h
    · cases hrest : extractAll f rest <;> rw [hrest] at h <;> simp [Except.map] at h
      cases h
      simp [ih _ hrest]

/-- Boxed-integer elements always extract, in order. -/
lemma extractAll_elemInt (vs : List Int) :
    extractAll elemInt (vs.map JVal.jint) = .ok vs := by
  induction vs with
  | nil => rfl
  | cons v vs ih =>
    simp [extractAll, elemInt, callMethod, asInt, ih, Except.map]

/-- Boxed-long elements always extract, in order. -/
lemma extractAll_elemLong (vs : List Int) :
    extractAll elemLong (vs.map JVal.jlong) = .ok vs := by
  induction vs with
  | nil => rfl
  | cons v vs ih =>
    simp [extractAll, elemLong, callMethod, asLong, ih, Except.map]

/-- String elements always extract, in order. -/
lemma extractAll_elemStr (ss : List String) :
    extractAll elemStr (ss.map JVal.jstr) = .ok ss := by
  induction ss with
  | nil => rfl
  | cons s ss ih =>
    simp [extractAll, elemStr, liftE, getStringE, ih, Except.map]

/-- The first element-level failure aborts the extraction with that very
error, provided every earlier element extracts (here: a well-formed boxed
prefix). -/
lemma extractAll_append_fail {α : Type} (f : JVal → JniM α)
    (good : List JVal) (vs : List α) (bad : JVal) (rest : List JVal) (err : JniError)
    (hgood : extractAll f good = .ok vs) (hbad : (f bad).1 = .error err) :
    extractAll f (good ++ bad :: rest) = .error err := by
  induction good generalizing vs with
  | nil => simp [extractAll, hbad]
  | cons e g ih =>
    simp only [List.cons_append, extractAll, List.append_eq] at hgood ⊢
    cases hfe : (f e).1
    · rw [hfe] at hgood
      simp at hgood
    · rw [hfe] at hgood
      cases hg : extractAll f g with
      | error err2 =>
        rw [hg] at hgood
        simp [Except.map] at hgood
      | ok vs2 =>
        have hrec : extractAll f (g ++ bad :: rest) = .error err := ih _ hg
        simp [hrec, Except.map]

/-! ### Generic facts about the embedded monad -/

/-- `bindE` computes the `Except`-bind on results and keeps the trace. -/
lemma bindE_eq_bind {α β : Type} (m : JniM α) (k : α → Except JniError β) :
    bindE m k = (m.1.bind k, m.2) := by
  rcases m with ⟨r, l⟩
  cases r <;> rfl

/-- `bindE` never adds trace entries. -/
lemma bindE_snd {α β : Type} (m : JniM α) (k : α → Except JniError β) :
    (bindE m k).2 = m.2 := by
  rcases m with ⟨r, l⟩
  cases r <;> rfl

/-! ### Optional extraction equations -/

@[simp]
lemma get_optional_jnull {α : Type} (f : JVal → JniM α) :
    get_optional .jnull f = (.ok none, []) := rfl

lemma get_optional_absent {α : Type} (f : JVal → JniM α) :
    get_optional (.joptional none) f =
      (.ok none, [⟨.joptional none, "isPresent"⟩]) := by
  simp [get_optional, JVal.isNull, callMethod, asBool, pureM]

lemma get_optional_present {α : Type} (f : JVal → JniM α) (x : JVal) :
    get_optional (.joptional (some x)) f =
      (Except.map some (f (.joptional (some x))).1,
       ⟨.joptional (some x), "isPresent"⟩ :: (f (.joptional (some x))).2) := by
  rcases hf : f (.joptional (some x)) with ⟨r, tr⟩
  cases r <;>
    simp [get_optional, JVal.isNull, callMethod, asBool, mapResult, pureM, hf, Except.map]

/-- The inner step every `get_*_opt` implementation performs when present:
one `get` invocation followed by the payload extraction. -/
lemma optAccessor_present {α : Type} (g : JVal → JniM α) (x : JVal) :
    optAccessor g (.joptional (some x)) =
      ((g x).1, ⟨.joptional (some x), "get"⟩ :: (g x).2) := by
  simp [optAccessor, callMethod]

/-! ### List extraction equations -/

lemma get_integers_jlist (es : List JVal) :
    get_integers (.jlist es) =
      ((extractAll elemInt es).map fun vs => pushAll (Vec.withCapacity es.length) vs,
       ⟨.jlist es, "size"⟩ :: tracesOf elemInt es) := by
  simp [get_integers, get_list, callMethod, asInt, list_loop_eq]

lemma get_longs_jlist (es : List JVal) :
    get_longs (.jlist es) =
      ((extractAll elemLong es).map fun vs => pushAll (Vec.withCapacity es.length) vs,
       ⟨.jlist es, "size"⟩ :: tracesOf elemLong es) := by
  simp [get_longs, get_list, callMethod, asInt, list_loop_eq]

lemma get_strings_jlist (es : List JVal) :
    get_strings (.jlist es) =
      ((extractAll elemStr es).map fun vs => pushAll (Vec.withCapacity es.length) vs,
       ⟨.jlist es, "size"⟩ :: tracesOf elemStr es) := by
  simp [get_strings, get_list, callMethod, asInt, list_loop_eq]

/-! ### Trace counting -/

lemma countName_cons (n : String) (c : MCall) (l : List MCall) :
    countName n (c :: l) = (if c.name = n then 1 else 0) + countName n l := by
  by_cases hc : c.name = n <;> simp [countName, List.filter_cons, hc, Nat.add_comm]

lemma countName_eq_zero {n : String} {l : List MCall}
    (h : ∀ c ∈ l, c.name ≠ n) : countName n l = 0 := by
  induction l with
  | nil => rfl
  | cons c l ih =>
    have hc : ¬(c.name = n) := h c (by simp)
    have hrest : ∀ d ∈ l, d.name ≠ n := fun d hd => h d (by simp [hd])
    simpa [countName_cons, hc] using ih hrest

/-- Element traces of the shared loop: if every per-element trace entry
satisfies `P`, so does every entry of the loop trace. -/
lemma tracesOf_names {α : Type} (f : JVal → JniM α) (P : String → Prop)
    (hf : ∀ e, ∀ c ∈ (f e).2, P c.name) :
    ∀ (es : List JVal), ∀ c ∈ tracesOf f es, P c.name := by
  intro es
  induction es with
  | nil => simp [tracesOf]
  | cons e es ih =>
    intro c hc
    simp only [tracesOf] at hc
    cases hfe : (f e).1 <;> rw [hfe] at hc
    · exact hf e c hc
    · rcases List.mem_append.1 hc with h1 | h2
      · exact hf e c h1
      · exact ih c h2

lemma elemInt_snd (e : JVal) : (elemInt e).2 = [⟨e, "intValue"⟩] := by
  simp [elemInt, bindE_snd, callMethod]

lemma elemLong_snd (e : JVal) : (elemLong e).2 = [⟨e, "longValue"⟩] := by
  simp [elemLong, bindE_snd, callMethod]

lemma elemStr_snd (e : JVal) : (elemStr e).2 = [] := rfl

/-! ### Accessor discipline -/

/-- A trace without `get` entries satisfies the accessor discipline under
any arming state. -/
lemma okSeq_no_gets :
    ∀ (l : List MCall) (armed : Bool), (∀ c ∈ l, c.name ≠ "get") →
      okSeq armed l = true := by
  intro l
  induction l with
  | nil => intro armed _; rfl
  | cons c l ih =>
    intro armed h
    have hc : ¬(c.name = "get") := h c (by simp)
    simp only [okSeq, if_neg hc]
    exact ih _ (fun d hd => h d (by simp [hd]))

/-! ### Equations for the method-returned optional extractors -/

lemma goifm_call_error {t : IntTarget} {obj : JVal} {name : String} {e : JniError}
    (h : callMethodE obj name "()Ljava/util/Optional;" = .error e) :
    get_optional_integer_from_method t obj name = (.error e, [⟨obj, name⟩]) := by
  simp [get_optional_integer_from_method, callMethod, h]

lemma goifm_jnull {t : IntTarget} {obj : JVal} {name : String}
    (h : callMethodE obj name "()Ljava/util/Optional;" = .ok .jnull) :
    get_optional_integer_from_method t obj name =
      (.error (.methodInvocation "call_method obj argument"),
       [⟨obj, name⟩, ⟨.jnull, "isPresent"⟩]) := by
  simp [get_optional_integer_from_method, callMethod, h]

lemma goifm_absent {t : IntTarget} {obj : JVal} {name : String}
    (h : callMethodE obj name "()Ljava/util/Optional;" = .ok (.joptional none)) :
    get_optional_integer_from_method t obj name =
      (.ok none, [⟨obj, name⟩, ⟨.joptional none, "isPresent"⟩]) := by
  simp [get_optional_integer_from_method, callMethod, h, asBool, pureM]

lemma goifm_present {t : IntTarget} {obj : JVal} {name : String} {x : JVal}
    (h : callMethodE obj name "()Ljava/util/Optional;" = .ok (.joptional (some x))) :
    get_optional_integer_from_method t obj name =
      ((callMethodE x "intValue" "()I").bind fun iv =>
         (asInt iv).bind fun v =>
           match try_from t v with
           | .ok w => .ok (some w)
           | .error e =>
               .error (.ioError ("Failed to convert from i32 to rust type: " ++ e)),
       [⟨obj, name⟩, ⟨.joptional (some x), "isPresent"⟩,
        ⟨.joptional (some x), "get"⟩, ⟨x, "intValue"⟩]) := by
  simp [get_optional_integer_from_method, callMethod, h, asBool, bindE_eq_bind,
    Except.bind]

lemma gofm_call_error {α : Type} {obj : JVal} {name : String} {e : JniError}
    (f : JVal → JniM α)
    (h : callMethodE obj name "()Ljava/util/Optional;" = .error e) :
    get_optional_from_method obj name f = (.error e, [⟨obj, name⟩]) := by
  simp [get_optional_from_method, callMethod, h]

lemma gofm_jnull {α : Type} {obj : JVal} {name : String} (f : JVal → JniM α)
    (h : callMethodE obj name "()Ljava/util/Optional;" = .ok .jnull) :
    get_optional_from_method obj name f =
      (.error (.methodInvocation "call_method obj argument"),
       [⟨obj, name⟩, ⟨.jnull, "isPresent"⟩]) := by
  simp [get_optional_from_method, callMethod, h]

lemma gofm_absent {α : Type} {obj : JVal} {name : String} (f : JVal → JniM α)
    (h : callMethodE obj name "()Ljava/util/Optional;" = .ok (.joptional none)) :
    get_optional_from_method obj name f =
      (.ok none, [⟨obj, name⟩, ⟨.joptional none, "isPresent"⟩]) := by
  simp [get_optional_from_method, callMethod, h, asBool, pureM]

lemma gofm_present {α : Type} {obj : JVal} {name : String} {x : JVal}
    (f : JVal → JniM α)
    (h : callMethodE obj name "()Ljava/util/Optional;" = .ok (.joptional (some x))) :
    get_optional_from_method obj name f =
      (Except.map some (f x).1,
       ⟨obj, name⟩ :: ⟨.joptional (some x), "isPresent"⟩ ::
         ⟨.joptional (some x), "get"⟩ :: (f x).2) := by
  rcases hf : f x with ⟨r, tr⟩
  cases r <;>
    simp [get_optional_from_method, callMethod, h, asBool, mapResult, hf, Except.map]

/-! ### Claim C1 -/

/-- C1 counterexample: the claim says `get_u64_opt` and
`get_int_as_usize_from_method` fail on sources not representable in the
target type, but both succeed on negative sources: a present
`Optional<Long>` holding `-1` extracts to `Ok(Some(u64::MAX))`, and an
`int`-returning method yielding `-5` extracts to `Ok(2^64 - 5)` — the
values are reinterpreted, not rejected. -/
theorem C1_counterexample :
    (get_u64_opt (.joptional (some (.jlong (-1))))).1 =
      .ok (some 18446744073709551615) ∧
    (get_int_as_usize_from_method (.jobj [("getVal", .jint (-5))]) "getVal").1 =
      .ok 18446744073709551611 := by
  constructor <;> rfl

/-- C1 amended: out-of-range sources do not make these two conversions
fail.  `get_u64_opt` converts the unwrapped `long` with the wrapping cast
`as u64`, returning its value modulo `2 ^ 64` (two's-complement
reinterpretation, so every negative long is sign-extended), and
`get_int_as_usize_from_method` likewise returns the `int` modulo `2 ^ 64`;
neither ever reports an out-of-range error.  (Only the `TryFrom`-based
narrowing conversions of `get_optional_integer_from_method` fail on
unrepresentable sources.) -/
theorem C1_amended :
    (∀ v : Int,
      (get_u64_opt (.joptional (some (.jlong v)))).1 =
        .ok (some (v % (2 ^ 64 : Int)).toNat)) ∧
    (∀ (obj : JVal) (name : String) (i : Int),
      callMethodE obj name "()I" = .ok (.jint i) →
      (get_int_as_usize_from_method obj name).1 =
        .ok ((i % (2 ^ 64 : Int)).toNat)) := by
  constructor
  · intro v
    simp [get_u64_opt, get_optional_present, optAccessor_present, u64Payload,
      callMethod, bindE_eq_bind, asLong, Except.map, Except.bind]
  · intro obj name i h
    simp [get_int_as_usize_from_method, callMethod, bindE_eq_bind, h, asInt,
      Except.map, Except.bind]

/-- C1 witness for the amended claim's hypothesis. -/
theorem C1_witness :
    (get_u64_opt (.joptional (some (.jlong (-1))))).1 =
      .ok (some (((-1 : Int) % (2 ^ 64 : Int)).toNat)) ∧
    (get_int_as_usize_from_method (.jobj [("getVal", .jint (-5))]) "getVal").1 =
      .ok (((-5 : Int) % (2 ^ 64 : Int)).toNat) :=
  ⟨C1_amended.1 (-1), C1_amended.2 _ "getVal" (-5) (by rfl)⟩

/-! ### Claim C4 -/

/-- C4: for the unsigned 32-bit narrowing used by
`get_optional_u32_from_method`, every negative 32-bit source value makes
the conversion fail, and every source in `[0, u32::MAX]` (with an `i32`
source: every non-negative one) succeeds and round-trips to the same
numeric value. -/
theorem C4_u32_narrowing (obj : JVal) (name : String) (v : Int)
    (h : callMethodE obj name "()Ljava/util/Optional;" =
      .ok (.joptional (some (.jint v))))
    (h1 : -(2 ^ 31) ≤ v) (h2 : v < 2 ^ 31) :
    (v < 0 → (get_optional_u32_from_method obj name).1 =
      .error (.ioError "Failed to convert from i32 to rust type: TryFromIntError(())")) ∧
    (0 ≤ v → (get_optional_u32_from_method obj name).1 = .ok (some v)) := by
  constructor
  · intro hv
    have hr : u32Target.inRange v = false := by
      simp only [u32Target, decide_eq_false_iff_not]
      omega
    simp [get_optional_u32_from_method, goifm_present h, asInt, try_from, hr,
      Except.bind]
    rfl
  · intro hv
    have hr : u32Target.inRange v = true := by
      simp only [u32Target, decide_eq_true_eq]
      omega
    simp [get_optional_u32_from_method, goifm_present h, asInt, try_from, hr,
      Except.bind]

/-- C4 witness: a present `Optional<Integer>` holding `5` round-trips to
`Ok(Some(5))`, and one holding `-3` fails the narrowing. -/
theorem C4_witness :
    (get_optional_u32_from_method
      (.jobj [("getA", .joptional (some (.jint 5)))]) "getA").1 = .ok (some 5) ∧
    (get_optional_u32_from_method
      (.jobj [("getA", .joptional (some (.jint (-3))))]) "getA").1 =
      .error (.ioError "Failed to convert from i32 to rust type: TryFromIntError(())") :=
  ⟨(C4_u32_narrowing _ "getA" 5 (by rfl) (by decide) (by decide)).2 (by decide),
   (C4_u32_narrowing _ "getA" (-3) (by rfl) (by decide) (by decide)).1 (by decide)⟩

/-! ### Claim C5 -/

/-- C5 counterexample: the claim says a failed narrowing carries the
offending source value and the target type's name, but the error is the
io-error kind with one fixed message: extracting `-1` and `-7`, and
extracting into two different target types (`u32` and `usize`), all
produce the identical payload "Failed to convert from i32 to rust type:
TryFromIntError(())" — a payload that is independent of the offending
value and of the target type therefore carries neither. -/
theorem C5_counterexample :
    (get_optional_u32_from_method
      (.jobj [("getV", .joptional (some (.jint (-1))))]) "getV").1 =
      .error (.ioError "Failed to convert from i32 to rust type: TryFromIntError(())") ∧
    (get_optional_u32_from_method
      (.jobj [("getV", .joptional (some (.jint (-7))))]) "getV").1 =
      .error (.ioError "Failed to convert from i32 to rust type: TryFromIntError(())") ∧
    (get_optional_usize_from_method
      (.jobj [("getV", .joptional (some (.jint (-1))))]) "getV").1 =
      .error (.ioError "Failed to convert from i32 to rust type: TryFromIntError(())") := by
  refine ⟨?_, ?_, ?_⟩ <;> rfl

/-- C5 amended: when the unwrapped 32-bit value is not representable in
the target type, the conversion fails with an io-error-kind error whose
message is the fixed prefix "Failed to convert from i32 to rust type: "
followed by the Debug rendering of the conversion error value — which for
the standard integer conversions is the constant "TryFromIntError(())",
carrying neither the offending value nor the target type's name. -/
theorem C5_amended (t : IntTarget) (obj : JVal) (name : String) (v : Int)
    (h : callMethodE obj name "()Ljava/util/Optional;" =
      .ok (.joptional (some (.jint v))))
    (hr : t.inRange v = false) :
    (get_optional_integer_from_method t obj name).1 =
      .error (.ioError ("Failed to convert from i32 to rust type: " ++ t.errDebug)) := by
  simp [goifm_present h, asInt, try_from, hr, Except.bind]

/-- C5 witness for the amended claim's hypotheses. -/
theorem C5_witness :
    (get_optional_integer_from_method u32Target
      (.jobj [("getW", .joptional (some (.jint (-2))))]) "getW").1 =
      .error (.ioError ("Failed to convert from i32 to rust type: " ++ u32Target.errDebug)) :=
  C5_amended u32Target _ "getW" (-2) (by rfl) (by decide)

/-! ### Claim C2 -/

/-- C2: for every optional-shaped reference fed to a `get_optional`-based
extraction (every caller in the source passes the accessor-then-payload
inner extractor `optAccessor g`): a null reference and a non-null empty
optional both yield `Ok(None)` with no error raised; a present optional
yields `Ok(Some(v))` where `v` is produced by exactly one invocation of
the accessor `get` followed by the payload extractor `g` on the unwrapped
inner value (a payload failure propagates unchanged). -/
theorem C2_optional_extraction {α : Type} (g : JVal → JniM α) :
    get_optional .jnull (optAccessor g) = (.ok none, []) ∧
    get_optional (.joptional none) (optAccessor g) =
      (.ok none, [⟨.joptional none, "isPresent"⟩]) ∧
    (∀ x : JVal,
      get_optional (.joptional (some x)) (optAccessor g) =
        (Except.map some (g x).1,
         ⟨.joptional (some x), "isPresent"⟩ ::
           ⟨.joptional (some x), "get"⟩ :: (g x).2)) ∧
    (∀ x : JVal, (∀ c ∈ (g x).2, c.name ≠ "get") →
      countName "get"
        (get_optional (.joptional (some x)) (optAccessor g)).2 = 1) := by
  refine ⟨rfl, get_optional_absent _, fun x => ?_, fun x hg => ?_⟩
  · rw [get_optional_present, optAccessor_present]
  · rw [get_optional_present, optAccessor_present]
    simp [countName_cons, countName_eq_zero hg]

/-- Trace of the `get_int_opt` payload extractor: the single boxed
`intValue` call. -/
lemma intPayload_snd (o : JVal) : (intPayload o).2 = [⟨o, "intValue"⟩] := by
  simp [intPayload, bindE_snd, callMethod]

/-- C2 witness at the `get_int_opt` instantiation. -/
theorem C2_witness :
    get_optional (α := Int) .jnull (optAccessor intPayload) = (.ok none, []) ∧
    countName "get"
      (get_optional (.joptional (some (.jint 7))) (optAccessor intPayload)).2 = 1 :=
  ⟨(C2_optional_extraction intPayload).1,
   (C2_optional_extraction intPayload).2.2.2 (.jint 7) (by
      intro c hc
      rw [intPayload_snd] at hc
      simp at hc
      simp [hc])⟩

/-! ### Claim C3 -/

/-- C3: for every Java `List<Integer>` (resp. `List<Long>`) of boxed
elements, `get_integers` (resp. `get_longs`) succeeds with a native
vector whose data is exactly the list of unboxed values in source order —
in particular its length is the source length and its i-th element is the
unboxed i-th source element. -/
theorem C3_list_extraction :
    (∀ vs : List Int,
      (get_integers (.jlist (vs.map JVal.jint))).1 = .ok ⟨vs.length, vs⟩) ∧
    (∀ ws : List Int,
      (get_longs (.jlist (ws.map JVal.jlong))).1 = .ok ⟨ws.length, ws⟩) := by
  constructor
  · intro vs
    simp [get_integers_jlist, extractAll_elemInt, Except.map, pushAll_eq,
      Vec.withCapacity]
  · intro ws
    simp [get_longs_jlist, extractAll_elemLong, Except.map, pushAll_eq,
      Vec.withCapacity]

/-! ### Claim C6 -/

lemma elemInt_no_size : ∀ e : JVal, ∀ c ∈ (elemInt e).2, c.name ≠ "size" := by
  intro e c hc
  rw [elemInt_snd] at hc
  simp at hc
  simp [hc]

lemma elemLong_no_size : ∀ e : JVal, ∀ c ∈ (elemLong e).2, c.name ≠ "size" := by
  intro e c hc
  rw [elemLong_snd] at hc
  simp at hc
  simp [hc]

lemma elemStr_no_size : ∀ e : JVal, ∀ c ∈ (elemStr e).2, c.name ≠ "size" := by
  intro e c hc
  rw [elemStr_snd] at hc
  simp at hc

/-- Successful extraction pushed onto the pre-sized vector keeps the
pre-set capacity: one value per source element never triggers growth. -/
lemma cap_of_ok {α : Type} (f : JVal → JniM α) (es : List JVal) (w : Vec α)
    (h : ((extractAll f es).map fun vs => pushAll (Vec.withCapacity es.length) vs)
      = .ok w) :
    w.cap = es.length := by
  cases hex : extractAll f es <;> rw [hex] at h
  · simp [Except.map] at h
  · simp [Except.map] at h
    have hlen := extractAll_length f es _ hex
    rw [← h, pushAll_eq _ _ (by simp [Vec.withCapacity, hlen])]
    rfl

/-- C6: every list extraction reads the reported size exactly once (it is
the one `size` invocation in the trace) and uses it to pre-size the
native vector (on success the result's capacity is exactly the reported
element count); and when the extraction of some element fails — every
earlier element being a well-formed boxed value — the whole extraction
returns that same element-level error unchanged, so no partial sequence
is ever returned. -/
theorem C6_collection_extraction :
    (∀ es : List JVal, countName "size" (get_integers (.jlist es)).2 = 1) ∧
    (∀ es : List JVal, countName "size" (get_longs (.jlist es)).2 = 1) ∧
    (∀ es : List JVal, countName "size" (get_strings (.jlist es)).2 = 1) ∧
    (∀ (es : List JVal) (w : Vec Int),
      (get_integers (.jlist es)).1 = .ok w → w.cap = es.length) ∧
    (∀ (es : List JVal) (w : Vec Int),
      (get_longs (.jlist es)).1 = .ok w → w.cap = es.length) ∧
    (∀ (es : List JVal) (w : Vec String),
      (get_strings (.jlist es)).1 = .ok w → w.cap = es.length) ∧
    (∀ (vs : List Int) (bad : JVal) (rest : List JVal) (err : JniError),
      (elemInt bad).1 = .error err →
      (get_integers (.jlist (vs.map JVal.jint ++ bad :: rest))).1 = .error err) ∧
    (∀ (ws : List Int) (bad : JVal) (rest : List JVal) (err : JniError),
      (elemLong bad).1 = .error err →
      (get_longs (.jlist (ws.map JVal.jlong ++ bad :: rest))).1 = .error err) ∧
    (∀ (ss : List String) (bad : JVal) (rest : List JVal) (err : JniError),
      (elemStr bad).1 = .error err →
      (get_strings (.jlist (ss.map JVal.jstr ++ bad :: rest))).1 = .error err) := by
  refine ⟨fun es => ?_, fun es => ?_, fun es => ?_,
    fun es w h => ?_, fun es w h => ?_, fun es w h => ?_,
    fun vs bad rest err hbad => ?_, fun ws bad rest err hbad => ?_,
    fun ss bad rest err hbad => ?_⟩
  · rw [get_integers_jlist]
    simp [countName_cons,
      countName_eq_zero (fun c hc => tracesOf_names elemInt (fun n => n ≠ "size") elemInt_no_size es c hc)]
  · rw [get_longs_jlist]
    simp [countName_cons,
      countName_eq_zero (fun c hc => tracesOf_names elemLong (fun n => n ≠ "size") elemLong_no_size es c hc)]
  · rw [get_strings_jlist]
    simp [countName_cons,
      countName_eq_zero (fun c hc => tracesOf_names elemStr (fun n => n ≠ "size") elemStr_no_size es c hc)]
  · rw [get_integers_jlist] at h
    exact cap_of_ok elemInt es w h
  · rw [get_longs_jlist] at h
    exact cap_of_ok elemLong es w h
  · rw [get_strings_jlist] at h
    exact cap_of_ok elemStr es w h
  · rw [get_integers_jlist]
    simp [extractAll_append_fail elemInt _ _ _ _ _ (extractAll_elemInt vs) hbad,
      Except.map]
  · rw [get_longs_jlist]
    simp [extractAll_append_fail elemLong _ _ _ _ _ (extractAll_elemLong ws) hbad,
      Except.map]
  · rw [get_strings_jlist]
    simp [extractAll_append_fail elemStr _ _ _ _ _ (extractAll_elemStr ss) hbad,
      Except.map]

/-- C6 witness: the empty list reads `size` once; a list whose second
element is not a boxed integer fails with that element's
method-invocation error. -/
theorem C6_witness :
    countName "size" (get_integers (.jlist [])).2 = 1 ∧
    (get_integers (.jlist [JVal.jint 1, JVal.jstr "x"])).1 =
      .error (.methodInvocation "method not found: intValue") :=
  ⟨C6_collection_extraction.1 [],
   C6_collection_extraction.2.2.2.2.2.2.1 [1] (.jstr "x") [] _ (by rfl)⟩

/-! ### Claim C7 -/

/-- C7: in every optional extraction the single-use accessor `get` is
invoked at most once, and only after `isPresent` was invoked on a
present optional in that same extraction (`okSeq` formalizes exactly
this discipline over the invocation trace).  For the method-returned
variants this holds for any receiver, because the JVM's
descriptor-checked dispatch guarantees the named method yields an
optional (or null, which fails before any accessor use); the hypotheses
say the caller-chosen method name is not itself the accessor and the
inner extractor performs no accessor calls of its own (true of every
inner extractor in the source).  For `get_optional` the argument is
optional-shaped — guaranteed at the boundary by the entry points'
`Optional` parameter types — and the inner extractor is well-behaved on
it (every source caller performs its single `get` first, which `okSeq
true` accepts). -/
theorem C7_accessor_discipline :
    (∀ (t : IntTarget) (obj : JVal) (name : String), name ≠ "get" →
      okSeq false (get_optional_integer_from_method t obj name).2 = true) ∧
    (∀ (α : Type) (obj : JVal) (name : String) (f : JVal → JniM α), name ≠ "get" →
      (∀ v : JVal, ∀ c ∈ (f v).2, c.name ≠ "get") →
      okSeq false (get_optional_from_method obj name f).2 = true) ∧
    (∀ (α : Type) (obj : JVal) (f : JVal → JniM α),
      (obj = .jnull ∨ ∃ o, obj = .joptional o) →
      okSeq true (f obj).2 = true →
      okSeq false (get_optional obj f).2 = true) := by
  refine ⟨fun t obj name hname => ?_, fun α obj name f hname hf => ?_,
    fun α obj f hobj hf => ?_⟩
  · cases h : callMethodE obj name "()Ljava/util/Optional;" with
    | error e =>
      rw [goifm_call_error h]
      simp [okSeq, hname]
    | ok P =>
      rcases callMethodE_optsig_shape h with hP | ⟨o, hP⟩
      · subst hP
        rw [goifm_jnull h]
        simp [okSeq, hname]
      · subst hP
        cases o with
        | none =>
          rw [goifm_absent h]
          simp [okSeq, hname]
        | some x =>
          rw [goifm_present h]
          simp [okSeq, hname, isPresentOptTrue]
  · cases h : callMethodE obj name "()Ljava/util/Optional;" with
    | error e =>
      rw [gofm_call_error f h]
      simp [okSeq, hname]
    | ok P =>
      rcases callMethodE_optsig_shape h with hP | ⟨o, hP⟩
      · subst hP
        rw [gofm_jnull f h]
        simp [okSeq, hname]
      · subst hP
        cases o with
        | none =>
          rw [gofm_absent f h]
          simp [okSeq, hname]
        | some x =>
          rw [gofm_present f h]
          simp [okSeq, hname, isPresentOptTrue, List.all_eq_true]
          intro c hc
          exact hf x c hc
  · rcases hobj with rfl | ⟨o, rfl⟩
    · rfl
    · cases o with
      | none =>
        rw [get_optional_absent]
        simp [okSeq]
      | some x =>
        rw [get_optional_present]
        simp only [okSeq, isPresentOptTrue]
        simpa using hf

/-- C7 witness: concrete extractions through all three entry shapes obey
the accessor discipline. -/
theorem C7_witness :
    okSeq false (get_optional_integer_from_method u32Target
      (.jobj [("getB", .joptional (some (.jint 2)))]) "getB").2 = true ∧
    okSeq false (get_optional_from_method
      (.jobj [("getB", .joptional (some (.jint 2)))]) "getB"
      (fun _ => pureM (0 : Nat))).2 = true ∧
    okSeq false
      (get_optional (.joptional (some (.jint 3))) (optAccessor intPayload)).2 = true :=
  ⟨C7_accessor_discipline.1 u32Target _ "getB" (by decide),
   C7_accessor_discipline.2.1 Nat _ "getB" _ (by decide)
     (fun v c hc => by simp [pureM] at hc),
   C7_accessor_discipline.2.2 Int _ _ (Or.inr ⟨some (.jint 3), rfl⟩) (by rfl)⟩

/-! ### Claim C8 -/

/-- C8: the boundary entry point `parseInts` on the managed list
`[1, 2, 3]` returns normally with no exception; on a null list reference
it throws a managed exception of the method-invocation failure kind —
null is rejected for the list shape (the jni null check when resolving
the list's class), unlike the optional shape where null means absent. -/
theorem C8_parseInts_boundary :
    parseInts (.jlist [.jint 1, .jint 2, .jint 3]) = .normal ∧
    parseInts .jnull = .thrown (.methodInvocation "get_object_class obj argument") := by
  constructor <;> rfl

/-! ### Claim C9 -/

/-- C9: for every present optional direct byte buffer, `get_bytes_opt`
returns `Ok(Some(view))` where the borrowed view's length is exactly the
capacity the managed runtime reports for the buffer, and the view is
built directly over the buffer's raw address (`view.addr` is the
buffer's address): a zero-copy alias — the view carries no bytes of its
own, only the address and length handed out by the runtime. -/
theorem C9_buffer_bridge (a : Nat) (bs : List Nat) :
    (get_bytes_opt (.joptional (some (.jbuffer a bs)))).1 =
      .ok (some ⟨a, bs.length⟩) ∧
    get_direct_buffer_capacity (.jbuffer a bs) = .ok bs.length ∧
    get_direct_buffer_address (.jbuffer a bs) = .ok a := by
  refine ⟨?_, rfl, rfl⟩
  rfl

/-! ### Claim C10 -/

/-- C10: the method-based optional extractors apply no null-as-absent
relaxation: they invoke `isPresent` unconditionally on whatever the
named method returned, so a null optional result produces the
method-invocation (null receiver) error rather than `None`; only the
direct-argument extractor `get_optional` maps a null reference to
`Ok(None)`. -/
theorem C10_null_optional_distinction :
    (∀ (α : Type) (obj : JVal) (name : String) (f : JVal → JniM α),
      callMethodE obj name "()Ljava/util/Optional;" = .ok .jnull →
      (get_optional_from_method obj name f).1 =
        .error (.methodInvocation "call_method obj argument")) ∧
    (∀ (t : IntTarget) (obj : JVal) (name : String),
      callMethodE obj name "()Ljava/util/Optional;" = .ok .jnull →
      (get_optional_integer_from_method t obj name).1 =
        .error (.methodInvocation "call_method obj argument")) ∧
    (∀ (α : Type) (f : JVal → JniM α), get_optional .jnull f = (.ok none, [])) := by
  refine ⟨fun α obj name f h => ?_, fun t obj name h => ?_, fun α f => rfl⟩
  · rw [gofm_jnull f h]
  · rw [goifm_jnull h]

/-- C10 witness: a method that returns a null `Optional` makes both
method-based extractors fail, while `get_optional` on the null reference
itself yields `None`. -/
theorem C10_witness :
    (get_optional_from_method (.jobj [("getOpt", .jnull)]) "getOpt"
      (fun _ => pureM (0 : Nat))).1 =
      .error (.methodInvocation "call_method obj argument") ∧
    (get_optional_integer_from_method u32Target
      (.jobj [("getOpt", .jnull)]) "getOpt").1 =
      .error (.methodInvocation "call_method obj argument") :=
  ⟨C10_null_optional_distinction.1 Nat _ "getOpt" _ (by rfl),
   C10_null_optional_distinction.2.1 u32Target _ "getOpt" (by rfl)⟩
